import Mathlib

/-!
Verification development for the LPC ISP protocol engine (`lpcisp.py`).

The Python source is shallowly embedded: bytes are `List Nat` (each entry
`< 256` where it matters), Python `int` is `Int`, floating point time values
are modelled as rationals, and the serial transport is an oracle: a list of
chunks, one chunk per `read`/`read_until` call, together with a log of
everything written and of the control-line toggles.  Fallible Python code
returns an explicit result (`Except` for pure helpers, `PyResult` for
stateful operations), with Python exceptions reified as values of `Exn`.
-/

namespace Lpcisp

/-- ASCII decimal digit test, used by the model of Python `int()`. -/
def isDigitB (c : Nat) : Bool := 48 ≤ c && c ≤ 57

/-- Bytes that Python `int()` strips from both ends of its argument. -/
def isPySpace (c : Nat) : Bool :=
  c = 32 || c = 9 || c = 10 || c = 13 || c = 11 || c = 12

/-- Strip leading and trailing ASCII whitespace, as Python `int()` does. -/
def stripSpaces (l : List Nat) : List Nat :=
  ((l.dropWhile isPySpace).reverse.dropWhile isPySpace).reverse

/-- Value of a digit run after its first digit: Python `int()` accepts a
single underscore between two digits. -/
def digitsVal : List Nat → Nat → Option Nat
  | [], acc => some acc
  | c :: rest, acc =>
    if isDigitB c then digitsVal rest (acc * 10 + (c - 48))
    else if c = 95 then
      match rest with
      | [] => none
      | d :: rest2 =>
        if isDigitB d then digitsVal rest2 (acc * 10 + (d - 48)) else none
    else none

/-- Nonempty digit run: the first character must be a digit. -/
def digitsNE : List Nat → Option Nat
  | [] => none
  | c :: rest => if isDigitB c then digitsVal rest (c - 48) else none

/-- Model of Python `int(line)` on a bytes object: optional surrounding
whitespace, an optional sign, then a nonempty decimal digit run (single
underscores allowed between digits).  `none` models the `ValueError`. -/
def pyIntParse (l : List Nat) : Option Int :=
  match stripSpaces l with
  | [] => none
  | c :: rest =>
    if c = 43 then (digitsNE rest).map (fun n => (n : Int))
    else if c = 45 then (digitsNE rest).map (fun n => -(n : Int))
    else (digitsNE (c :: rest)).map (fun n => (n : Int))

/-- `ISP._checksum`: running byte sum, masked to 32 bits at every step. -/
def checksum (data : List Nat) : Nat :=
  data.foldl (fun acc b => (acc + b) % 4294967296) 0

/-- Python exceptions that the embedded code can raise. -/
inductive Exn where
  | valueError
  | indexError
  | typeError
  | assertionError
  | commandFailed (code : Nat)
  | syncFailed
  | readTimeout
deriving DecidableEq, Repr

/-- Value of one body character for `binascii.a2b_uu`: CR and LF count as
zero, characters in `[0x20, 0x60]` carry `(c - 0x20) mod 64`, anything else
is the `Illegal char` error. -/
def uuCharVal (c : Nat) : Option Nat :=
  if c = 10 || c = 13 then some 0
  else if 32 ≤ c && c ≤ 96 then some ((c - 32) % 64)
  else none

/-- Characters `binascii.a2b_uu` tolerates after the declared data:
space, backtick, CR, LF. -/
def uuTrailOk (c : Nat) : Bool := c = 32 || c = 96 || c = 10 || c = 13

/-- When `a2b_uu` runs out of input characters it keeps shifting in zero
bits until the declared byte count is produced. -/
def a2bFlush : Nat → Nat → Nat → List Nat
  | 0, _, _ => []
  | n + 1, leftchar, leftbits =>
    if 8 ≤ leftbits + 6 then
      ((leftchar * 64) / 2 ^ (leftbits + 6 - 8)) % 256 ::
        a2bFlush n ((leftchar * 64) % 2 ^ (leftbits + 6 - 8)) (leftbits + 6 - 8)
    else
      ((leftchar * 4096) / 2 ^ (leftbits + 12 - 8)) % 256 ::
        a2bFlush n ((leftchar * 4096) % 2 ^ (leftbits + 12 - 8)) (leftbits + 12 - 8)

/-- Main loop of `binascii.a2b_uu`: `n` bytes still to produce, the body
characters, and the bit accumulator (`leftchar`, `leftbits`).  Once the
byte count is reached the remaining characters must be trailing filler. -/
def a2bLoop (n : Nat) (chars : List Nat) (leftchar leftbits : Nat) :
    Except Exn (List Nat) :=
  match n, chars with
  | 0, cs => if cs.all uuTrailOk then .ok [] else .error .valueError
  | n + 1, [] => .ok (a2bFlush (n + 1) leftchar leftbits)
  | n + 1, c :: rest =>
    match uuCharVal c with
    | none => .error .valueError
    | some d =>
      if 8 ≤ leftbits + 6 then
        match a2bLoop n rest ((leftchar * 64 + d) % 2 ^ (leftbits + 6 - 8))
            (leftbits + 6 - 8) with
        | .ok bs => .ok (((leftchar * 64 + d) / 2 ^ (leftbits + 6 - 8)) % 256 :: bs)
        | .error e => .error e
      else a2bLoop (n + 1) rest (leftchar * 64 + d) (leftbits + 6)

/-- Model of `binascii.a2b_uu`: the first character declares the byte
count (`(c - 0x20) mod 64`, computed with C wrap-around), the rest is the
6-bit body. -/
def a2b_uu (ascii : List Nat) : Except Exn (List Nat) :=
  match ascii with
  | [] => .ok (List.replicate 32 0)
  | c :: rest => a2bLoop ((((c : Int) - 32) % 64).toNat) rest 0 0

/-- Python `l[:n]` for an `Int` bound `n`. -/
def pySliceTo (l : List Nat) (n : Int) : List Nat :=
  if 0 ≤ n then l.take n.toNat
  else l.take (((l.length : Int) + n).toNat)

/-- `ISP.uudecode`: read the declared length from the first character,
round the declared length up to the next multiple of 3 (the ISP pads the
final group), run the standard decode, then truncate to the declared
length.  `bytes([x])` with `x > 255` raises `ValueError`; indexing an
empty line raises `IndexError`. -/
def uudecode (encoded : List Nat) : Except Exn (List Nat) :=
  match encoded with
  | [] => .error .indexError
  | c :: rest =>
    let size : Int := (c : Int) - 32
    let pad : Int := size % 3
    if pad ≠ 0 then
      if 255 < (c : Int) + (3 - pad) then .error .valueError
      else
        match a2b_uu (((c : Int) + (3 - pad)).toNat :: rest) with
        | .error e => .error e
        | .ok dec => .ok (pySliceTo dec size)
    else
      match a2b_uu (c :: rest) with
      | .error e => .error e
      | .ok dec => .ok (pySliceTo dec size)

/-- Modelled from the spec: a conforming uuencoder's body — every group of
three payload bytes becomes four characters carrying 6 bits each, biased
by `0x20`.  (The repository contains no encoder; the target device
produces these lines.) -/
def encGroups : List Nat → List Nat
  | a :: b :: c :: rest =>
    (32 + (a * 65536 + b * 256 + c) / 262144) ::
      (32 + ((a * 65536 + b * 256 + c) / 4096) % 64) ::
      (32 + ((a * 65536 + b * 256 + c) / 64) % 64) ::
      (32 + (a * 65536 + b * 256 + c) % 64) :: encGroups rest
  | _ => []

/-- Modelled from the spec: a conforming uuencoded line — length character
is the payload byte count plus the bias `0x20`, followed by the 6-bit body
of the payload padded (with arbitrary pad bytes) to a multiple of three
bytes. -/
def uuencode (data padding : List Nat) : List Nat :=
  (32 + data.length) :: encGroups (data ++ padding)

/-! ### Round trip of the block line codec (claim C1) -/

lemma uuCharVal_enc (d : Nat) (hd : d < 64) : uuCharVal (32 + d) = some d := by
  simp only [uuCharVal]
  have h1 : ¬(32 + d = 10 || 32 + d = 13) = true := by simp; omega
  have h2 : (32 ≤ 32 + d && 32 + d ≤ 96) = true := by simp; omega
  rw [if_neg (by simp at h1 ⊢; omega), if_pos h2]
  simp [Nat.mod_eq_of_lt hd]

lemma a2bLoop_step0 (m d : Nat) (hd : d < 64) (cs : List Nat) :
    a2bLoop (m + 1) ((32 + d) :: cs) 0 0 = a2bLoop (m + 1) cs d 6 := by
  simp [a2bLoop, uuCharVal_enc d hd]

lemma a2bLoop_step1 (m d lc : Nat) (hd : d < 64) (cs : List Nat) :
    a2bLoop (m + 1) ((32 + d) :: cs) lc 6 =
      match a2bLoop m cs ((lc * 64 + d) % 16) 4 with
      | .ok bs => .ok ((lc * 64 + d) / 16 % 256 :: bs)
      | .error e => .error e := by
  simp [a2bLoop, uuCharVal_enc d hd]

lemma a2bLoop_step2 (m d lc : Nat) (hd : d < 64) (cs : List Nat) :
    a2bLoop (m + 1) ((32 + d) :: cs) lc 4 =
      match a2bLoop m cs ((lc * 64 + d) % 4) 2 with
      | .ok bs => .ok ((lc * 64 + d) / 4 % 256 :: bs)
      | .error e => .error e := by
  simp [a2bLoop, uuCharVal_enc d hd]

lemma a2bLoop_step3 (m d lc : Nat) (hd : d < 64) (cs : List Nat) :
    a2bLoop (m + 1) ((32 + d) :: cs) lc 2 =
      match a2bLoop m cs 0 0 with
      | .ok bs => .ok ((lc * 64 + d) % 256 :: bs)
      | .error e => .error e := by
  simp [a2bLoop, uuCharVal_enc d hd, Nat.mod_one]

lemma a2bLoop_encGroups_cons (a b c n : Nat) (rest : List Nat)
    (ha : a < 256) (hb : b < 256) (hc : c < 256) :
    a2bLoop (n + 1 + 1 + 1) (encGroups (a :: b :: c :: rest)) 0 0 =
      match a2bLoop n (encGroups rest) 0 0 with
      | .ok bs => .ok (a :: b :: c :: bs)
      | .error e => .error e := by
  have h0 : (a * 65536 + b * 256 + c) / 262144 < 64 := by omega
  have h1 : (a * 65536 + b * 256 + c) / 4096 % 64 < 64 := by omega
  have h2 : (a * 65536 + b * 256 + c) / 64 % 64 < 64 := by omega
  have h3 : (a * 65536 + b * 256 + c) % 64 < 64 := by omega
  rw [encGroups, a2bLoop_step0 _ _ h0, a2bLoop_step1 _ _ _ h1,
    a2bLoop_step2 _ _ _ h2, a2bLoop_step3 _ _ _ h3]
  cases hX : a2bLoop n (encGroups rest) 0 0 with
  | error e => simp
  | ok bs =>
    simp only [Except.ok.injEq, List.cons.injEq]
    refine ⟨by omega, by omega, by omega, trivial⟩

lemma a2bLoop_enc :
    ∀ (k : Nat) (l : List Nat), l.length ≤ k → (∀ x ∈ l, x < 256) →
      l.length % 3 = 0 → a2bLoop l.length (encGroups l) 0 0 = .ok l := by
  intro k
  induction k with
  | zero =>
    intro l hlen _ _
    have : l = [] := by cases l with | nil => rfl | cons a t => simp at hlen
    subst this
    simp [a2bLoop, encGroups, uuTrailOk]
  | succ k ih =>
    intro l hlen hbytes hmod
    match l with
    | [] => simp [a2bLoop, encGroups, uuTrailOk]
    | [a] => simp at hmod
    | [a, b] => simp at hmod
    | a :: b :: c :: rest =>
      have hlr : (a :: b :: c :: rest).length = rest.length + 1 + 1 + 1 := by
        simp
      rw [hlr, a2bLoop_encGroups_cons a b c rest.length rest
        (hbytes a (by simp)) (hbytes b (by simp)) (hbytes c (by simp))]
      have hrest : a2bLoop rest.length (encGroups rest) 0 0 = .ok rest := by
        refine ih rest ?_ ?_ ?_
        · simp at hlen; omega
        · intro x hx; exact hbytes x (by simp [hx])
        · simp at hmod; omega
      rw [hrest]

/-- C1: encoding any byte sequence of length 0–45 with a conforming
uuencoder (length character = byte count plus bias `0x20`, 6-bit body,
arbitrary padding bytes completing the final group of three) and then
decoding with `ISP.uudecode` — which rounds the declared length up to the
next multiple of 3 before the standard decode and truncates the result to
the declared length — returns exactly the original bytes. -/
theorem C1_block_line_roundtrip (data padding : List Nat)
    (hlen : data.length ≤ 45)
    (hdata : ∀ x ∈ data, x < 256)
    (hpad : ∀ x ∈ padding, x < 256)
    (hplen : padding.length = (3 - data.length % 3) % 3) :
    uudecode (uuencode data padding) = .ok data := by
  have hjoin : ∀ x ∈ data ++ padding, x < 256 := by
    intro x hx
    rcases List.mem_append.mp hx with h | h
    · exact hdata x h
    · exact hpad x h
  have hjlen : (data ++ padding).length = data.length + (3 - data.length % 3) % 3 := by
    simp [hplen]
  have hjmod : (data ++ padding).length % 3 = 0 := by omega
  have hdec : a2bLoop ((data ++ padding).length) (encGroups (data ++ padding)) 0 0 =
      .ok (data ++ padding) :=
    a2bLoop_enc ((data ++ padding).length) (data ++ padding) le_rfl hjoin hjmod
  rw [uuencode, uudecode]
  by_cases h3 : data.length % 3 = 0
  · have hpad0 : padding = [] := by
      have : padding.length = 0 := by omega
      exact List.length_eq_zero.mp this
    subst hpad0
    simp only [List.append_nil] at hdec hjlen ⊢
    have hcond : ¬ ((((32 + data.length : Nat) : Int) - 32) % 3 ≠ 0) := by omega
    rw [if_neg hcond, a2b_uu]
    have hbin : (((((32 + data.length : Nat) : Int)) - 32) % 64).toNat = data.length := by
      omega
    rw [hbin]
    have hslice : pySliceTo data (((32 + data.length : Nat) : Int) - 32) = data := by
      rw [pySliceTo, if_pos (by omega)]
      have h4 : ((((32 + data.length : Nat) : Int)) - 32).toNat = data.length := by omega
      rw [h4, List.take_length]
    simp only [hdec, hslice]
  · have hcond : (((32 + data.length : Nat) : Int) - 32) % 3 ≠ 0 := by omega
    rw [if_pos hcond]
    have hbound : ¬ (255 < ((32 + data.length : Nat) : Int) +
        (3 - (((32 + data.length : Nat) : Int) - 32) % 3)) := by omega
    rw [if_neg hbound, a2b_uu]
    have hchar : (((32 + data.length : Nat) : Int) +
        (3 - (((32 + data.length : Nat) : Int) - 32) % 3)).toNat =
        32 + (data ++ padding).length := by omega
    rw [hchar]
    have hbin : ((((32 + (data ++ padding).length : Nat) : Int) - 32) % 64).toNat =
        (data ++ padding).length := by omega
    rw [hbin]
    have hslice : pySliceTo (data ++ padding) (((32 + data.length : Nat) : Int) - 32) =
        data := by
      rw [pySliceTo, if_pos (by omega)]
      have h4 : ((((32 + data.length : Nat) : Int)) - 32).toNat = data.length := by omega
      rw [h4, List.take_left]
    simp only [hdec, hslice]

/-- Witness for C1 at a concrete input: four payload bytes, two padding
bytes. -/
theorem C1_block_line_roundtrip_witness :
    ([1, 2, 3, 4] : List Nat).length ≤ 45 ∧
      uudecode (uuencode [1, 2, 3, 4] [7, 8]) = .ok [1, 2, 3, 4] :=
  ⟨by decide, C1_block_line_roundtrip [1, 2, 3, 4] [7, 8] (by decide)
    (by decide) (by decide) (by decide)⟩

/-! ### Transport and engine state

The serial port is an oracle: `incoming` lists, in order, the chunk each
successive read call returns.  `read_until`/`read` with the timeout
disabled (`none`, Python `None`) block forever on an exhausted oracle,
which the model reports as `blocked`; with a finite timeout an exhausted
oracle yields the empty chunk, as a timed-out read does. -/

/-- A control-line assignment (`self.s.dtr = b` / `self.s.rts = b`). -/
inductive CtrlEvent where
  | dtr (b : Bool)
  | rts (b : Bool)
deriving DecidableEq, Repr

/-- Model of the pyserial object owned by the engine. -/
structure Serial where
  incoming : List (List Nat)
  written : List (List Nat)
  ctrl : List CtrlEvent
  timeout : Option ℚ
deriving DecidableEq, Repr

/-- Mutable engine state: the serial port plus the `_echo` flag. -/
structure EngState where
  ser : Serial
  echoFlag : Bool
deriving DecidableEq, Repr

/-- The values stored in `self._args` by `ISP.__init__` (each passed
through `int()`). -/
structure Args where
  baud : Nat
  stopbits : Nat
  timeout : Nat
  tgtclk : Nat
  sync_timeout : Nat
deriving DecidableEq, Repr

/-- Outcome of a stateful operation: normal return, a raised Python
exception, or the model artifact of a read that blocks forever. -/
inductive PyResult (α : Type) where
  | ok (v : α) (st : EngState)
  | exn (e : Exn) (st : EngState)
  | blocked (st : EngState)
deriving DecidableEq

/-- State carried by an outcome, whichever constructor produced it. -/
def PyResult.finalState {α : Type} : PyResult α → EngState
  | .ok _ st => st
  | .exn _ st => st
  | .blocked st => st

/-- The exception of an outcome, if one was raised. -/
def PyResult.exnOf {α : Type} : PyResult α → Option Exn
  | .exn e _ => some e
  | _ => none

/-- The returned value of an outcome, if it returned normally. -/
def PyResult.valueOf {α : Type} : PyResult α → Option α
  | .ok v _ => some v
  | _ => none

/-- Sequencing with Python's implicit exception propagation: a raised
exception (or a blocked read) aborts everything downstream. -/
def PyResult.andThen {α β : Type} (r : PyResult α) (f : α → EngState → PyResult β) :
    PyResult β :=
  match r with
  | .ok v st => f v st
  | .exn e s => .exn e s
  | .blocked s => .blocked s

@[simp] lemma PyResult.andThen_ok {α β : Type} (v : α) (st : EngState)
    (f : α → EngState → PyResult β) : (PyResult.ok v st).andThen f = f v st := rfl

@[simp] lemma PyResult.andThen_exn {α β : Type} (e : Exn) (st : EngState)
    (f : α → EngState → PyResult β) :
    (PyResult.exn e st).andThen f = PyResult.exn e st := rfl

@[simp] lemma PyResult.andThen_blocked {α β : Type} (st : EngState)
    (f : α → EngState → PyResult β) :
    (PyResult.blocked st).andThen f = PyResult.blocked st := rfl

/-- Append one write to the transport log (`self.s.write`). -/
def serWrite (b : List Nat) (st : EngState) : EngState :=
  { st with ser := { st.ser with written := st.ser.written ++ [b] } }

/-- Assign the serial read timeout (`self.s.timeout = t`). -/
def setSerTimeout (t : Option ℚ) (st : EngState) : EngState :=
  { st with ser := { st.ser with timeout := t } }

/-- One `self.s.read_until()` call against the oracle. -/
def read_until (st : EngState) : PyResult (List Nat) :=
  match st.ser.incoming with
  | l :: rest => .ok l { st with ser := { st.ser with incoming := rest } }
  | [] =>
    match st.ser.timeout with
    | none => .blocked st
    | some _ => .ok [] st

/-- One `self.s.read(1)` call; the oracle supplies the chunk. -/
def read1 (st : EngState) : PyResult (List Nat) := read_until st

/-- `self.s.readlines()`: reads everything until the timeout elapses;
with the timeout disabled it would never return. -/
def readlinesFn (st : EngState) : PyResult (List (List Nat)) :=
  match st.ser.timeout with
  | none => .blocked st
  | some _ => .ok st.ser.incoming { st with ser := { st.ser with incoming := [] } }

/-- `[self.s.read_until() for i in range(n)]`. -/
def readN : Nat → EngState → PyResult (List (List Nat))
  | 0, st => .ok [] st
  | n + 1, st =>
    (read_until st).andThen fun l st' =>
      (readN n st').andThen fun ls st'' => .ok (l :: ls) st''

/-- `ISP.cancel_cmd`: write the escape byte, and with echo on consume its
echo. -/
def cancel_cmd (st : EngState) : PyResult Unit :=
  let st1 := serWrite [27] st
  if st1.echoFlag then (read1 st1).andThen fun _ st2 => .ok () st2
  else .ok () st1

/-! ### The command channel (`ISP.cmd`) -/

/-- The `cmd` argument: already `bytes`, or a `str` that gets encoded and
CRLF-terminated. -/
inductive CmdArg where
  | bytesArg (l : List Nat)
  | strArg (l : List Nat)
deriving DecidableEq, Repr

/-- Normalization at the top of `ISP.cmd`: a `str` argument is encoded and
`\r\n` is appended unless already present; a `bytes` argument is sent
verbatim. -/
def normalizeCmd : CmdArg → List Nat
  | .bytesArg l => l
  | .strArg l =>
    if 2 ≤ l.length ∧ l.drop (l.length - 2) = [13, 10] then l else l ++ [13, 10]

/-- The shaped return value of `ISP.cmd`: `None`, a single decoded line,
or a list of decoded lines. -/
inductive PyResp where
  | noneR
  | one (s : List Nat)
  | many (ls : List (List Nat))
deriving DecidableEq, Repr

/-- Python truthiness of the `timeout` keyword argument. -/
def tmoTruthy : Option ℚ → Bool
  | none => false
  | some v => decide (v ≠ 0)

/-- Tail of `ISP.cmd`: strip `\r\n`, decode latin-1 (which is the identity
on byte values), and shape the result as `None` / one line / a list. -/
def convertResp (rl : List (List Nat)) (st : EngState) : PyResult PyResp :=
  match rl.map (fun l => l.take (l.length - 2)) with
  | [] => .ok .noneR st
  | [x] => .ok (.one x) st
  | x :: y :: rest => .ok (.many (x :: y :: rest)) st

/-- Final phase of `ISP.cmd`, after all reads: restore an overridden
timeout, drop a leading echo of the command, then — if a return code is
expected and a line is available — parse it, cancel and raise on any
non-success code, and shape the remaining lines. -/
def cmdFinish (a : Args) (cmdB : List Nat) (return_code : Bool) (tb : Bool)
    (rl : List (List Nat)) (st : EngState) : PyResult PyResp :=
  let st1 := if tb then setSerTimeout (some (a.timeout : ℚ)) st else st
  let rl1 := if st1.echoFlag ∧ rl.head? = some cmdB then rl.tail else rl
  if return_code then
    match rl1 with
    | [] => convertResp [] st1
    | first :: rest =>
      match pyIntParse first with
      | none => .exn .valueError st1
      | some k =>
        if k < 0 ∨ 22 < k then .exn .valueError st1
        else if k ≠ 0 then
          (cancel_cmd st1).andThen fun _ st2 => .exn (.commandFailed k.toNat) st2
        else convertResp rest st1
  else convertResp rl1 st1

/-- Middle phase of `ISP.cmd`: the return-code read, then either a fixed
number of line reads (`range` of a possibly negative count) or
`readlines()`. -/
def cmdPhase2 (a : Args) (cmdB : List Nat) (return_code : Bool) (lines : Option Int)
    (tb : Bool) (rl : List (List Nat)) (st : EngState) : PyResult PyResp :=
  (if return_code then
      (read_until st).andThen fun l st' => .ok (rl ++ [l]) st'
    else .ok rl st).andThen fun rl2 st2 =>
    match lines with
    | some n =>
      (readN n.toNat st2).andThen fun ls st3 =>
        cmdFinish a cmdB return_code tb (rl2 ++ ls) st3
    | none =>
      (readlinesFn st2).andThen fun ls st3 =>
        cmdFinish a cmdB return_code tb (rl2 ++ ls) st3

/-- `ISP.cmd`: apply a timeout override, normalize and write the command,
then — with echo on — read the echo line; a mismatching echo line counts
toward the expected lines (`lines -= 1`), which raises `TypeError` when
`lines` is `None`. -/
def cmd (a : Args) (arg : CmdArg) (return_code : Bool) (lines : Option Int)
    (tmo : Option ℚ) (st : EngState) : PyResult PyResp :=
  let st1 := if tmoTruthy tmo then setSerTimeout tmo st else st
  let st2 := serWrite (normalizeCmd arg) st1
  if st2.echoFlag then
    (read_until st2).andThen fun l st3 =>
      if l ≠ normalizeCmd arg then
        match lines with
        | none => .exn .typeError st3
        | some n =>
          cmdPhase2 a (normalizeCmd arg) return_code (some (n - 1)) (tmoTruthy tmo)
            [l] st3
      else cmdPhase2 a (normalizeCmd arg) return_code lines (tmoTruthy tmo) [l] st3
  else cmdPhase2 a (normalizeCmd arg) return_code lines (tmoTruthy tmo) [] st2

/-- Byte values of an ASCII string literal. -/
def strBytes (s : String) : List Nat := s.data.map Char.toNat

/-- Decimal rendering of a natural number, as Python `str`/f-strings
produce for the command lines. -/
def decRepr (n : Nat) : List Nat := (Nat.toDigits 10 n).map Char.toNat

/-! ### Synchronizer (`ISP.synchronize`, `ISP.reset`) -/

/-- `ISP.reset`: assert DTR and RTS, hold, deassert DTR (the sleeps carry
no observable state). -/
def resetFn (st : EngState) : EngState :=
  { st with ser := { st.ser with
      ctrl := st.ser.ctrl ++ [.dtr true, .rts true, .dtr false] } }

/-- The `while True` loop of `ISP.synchronize`.  Each iteration consumes
one `time.time()` reading; the deadline is the hard-coded constant 10.0
seconds.  An attempt is: reset pulse, `?` handshake, handshake echo, clock
frequency — any mismatching response falls through to the next
iteration. -/
def syncLoop (a : Args) (start : ℚ) : List ℚ → EngState → PyResult Unit
  | [], st => .blocked st
  | now :: clock, st =>
    if now - start > 10 then .exn .syncFailed st
    else
      (cmd a (.bytesArg [63]) false (some 1) none (resetFn st)).andThen fun r1 st2 =>
        if r1 ≠ .one (strBytes "Synchronized") then syncLoop a start clock st2
        else
          (cmd a (.strArg (strBytes "Synchronized")) false (some 1) none
              st2).andThen fun r2 st3 =>
            if r2 ≠ .one (strBytes "OK") then syncLoop a start clock st3
            else
              (cmd a (.strArg (decRepr a.tgtclk)) false (some 1) none
                  st3).andThen fun r3 st4 =>
                if r3 ≠ .one (strBytes "OK") then syncLoop a start clock st4
                else .ok () st4

/-- `ISP.synchronize`: record the start time, then run the retry loop. -/
def synchronize (a : Args) (clock : List ℚ) (st : EngState) : PyResult Unit :=
  match clock with
  | [] => .blocked st
  | start :: clock' => syncLoop a start clock' st

/-! ### Block transfer receiver (`ISP._read_data`, `ISP.read_memory`) -/

/-- The `while len(data) < size` loop of `ISP._read_data`.  Each iteration
consumes one `time.time()` reading, compares it against the wall-clock
deadline, reads one line, and treats it as a checksum line when it parses
as an integer (acknowledging `OK`/`RESEND`) or as an encoded data line
otherwise.  On loop exit the default timeout is restored. -/
def read_data_loop (a : Args) (size : Nat) (tmo start : ℚ) (clock : List ℚ)
    (data block_data : List Nat) (blocks : Nat) (st : EngState) :
    PyResult (List Nat) :=
  if data.length < size then
    match clock with
    | [] => .blocked st
    | now :: clock' =>
      if now - start > tmo then
        (cancel_cmd st).andThen fun _ st2 => .exn .readTimeout st2
      else
        (read_until st).andThen fun line st2 =>
          match pyIntParse line with
          | some recvd =>
            if (checksum block_data : Int) = recvd then
              (cmd a (.strArg (strBytes "OK")) false (some 0) none st2).andThen
                fun _ st3 =>
                  read_data_loop a size tmo start clock' (data ++ block_data) []
                    (blocks + 1) st3
            else
              (cmd a (.strArg (strBytes "RESEND")) false (some 0) none st2).andThen
                fun _ st3 => read_data_loop a size tmo start clock' data [] blocks st3
          | none =>
            match uudecode line with
            | .ok dec =>
              read_data_loop a size tmo start clock' data (block_data ++ dec) blocks st2
            | .error e => .exn e st2
  else .ok data (setSerTimeout (some (a.timeout : ℚ)) st)

/-- `ISP._read_data`: disable the serial read timeout, record the start
time, and run the receive loop. -/
def read_data (a : Args) (size : Nat) (tmo : ℚ) (clock : List ℚ)
    (st : EngState) : PyResult (List Nat) :=
  let st1 := setSerTimeout none st
  match clock with
  | [] => .blocked st1
  | start :: clock' => read_data_loop a size tmo start clock' [] [] 0 st1

/-- `ISP.read_memory`: assert word alignment of address and size, issue
the `R` command (status line expected, no further fixed lines), then
delegate to `_read_data`. -/
def read_memory (a : Args) (addr size : Nat) (tmo : ℚ) (clock : List ℚ)
    (st : EngState) : PyResult (List Nat) :=
  if addr % 4 ≠ 0 then .exn .assertionError st
  else if size % 4 ≠ 0 then .exn .assertionError st
  else
    (cmd a (.strArg (strBytes "R " ++ decRepr addr ++ strBytes " " ++ decRepr size))
        true (some 0) none st).andThen fun _ st2 => read_data a size tmo clock st2

/-! ### Echo property (`ISP.echo`, `ISP._echo_cmd`, `ISP.__init__`) -/

/-- `ISP._echo_cmd`: issues `A 1` and falls off the end of the function —
its Python return value is `None` whatever the transport answers. -/
def echo_cmd_fn (a : Args) (mode : Bool) (st : EngState) :
    PyResult (Option (List Nat)) :=
  (cmd a (.strArg (strBytes "A 1")) true none none st).andThen fun _ st2 =>
    .ok none st2

/-- The `echo` property setter: run `_echo_cmd` and store the new mode
only if the helper's return value equals the string `"OK"`. -/
def echo_setter (a : Args) (mode : Bool) (st : EngState) : PyResult Unit :=
  (echo_cmd_fn a mode st).andThen fun response st2 =>
    if response = some (strBytes "OK") then .ok () { st2 with echoFlag := mode }
    else .ok () st2

/-- The engine state right after `self._echo = True` in `ISP.__init__`. -/
def initEngState (ser : Serial) : EngState := { ser := ser, echoFlag := true }

/-! ### The `_echo` flag is never written (claim C9) -/

lemma andThen_echo {α β : Type} {c : Bool} (r : PyResult α)
    (f : α → EngState → PyResult β)
    (hr : r.finalState.echoFlag = c)
    (hf : ∀ v s, s.echoFlag = c → (f v s).finalState.echoFlag = c) :
    (r.andThen f).finalState.echoFlag = c := by
  cases r with
  | ok v s => exact hf v s hr
  | exn e s => exact hr
  | blocked s => exact hr

lemma read_until_echo (st : EngState) :
    (read_until st).finalState.echoFlag = st.echoFlag := by
  rcases hi : st.ser.incoming with _ | ⟨l, rest⟩
  · rcases ht : st.ser.timeout with _ | v <;>
      simp [read_until, hi, ht, PyResult.finalState]
  · simp [read_until, hi, PyResult.finalState]

lemma read1_echo (st : EngState) :
    (read1 st).finalState.echoFlag = st.echoFlag := read_until_echo st

lemma readlinesFn_echo (st : EngState) :
    (readlinesFn st).finalState.echoFlag = st.echoFlag := by
  rcases ht : st.ser.timeout with _ | v <;>
    simp [readlinesFn, ht, PyResult.finalState]

lemma readN_echo (n : Nat) (st : EngState) :
    (readN n st).finalState.echoFlag = st.echoFlag := by
  induction n generalizing st with
  | zero => rfl
  | succ n ih =>
    unfold readN
    refine andThen_echo _ _ (read_until_echo st) ?_
    intro l s hs
    refine andThen_echo _ _ ((ih s).trans hs) ?_
    intro ls s2 hs2
    exact hs2

lemma cancel_cmd_echo (st : EngState) :
    (cancel_cmd st).finalState.echoFlag = st.echoFlag := by
  have hw : (serWrite [27] st).echoFlag = st.echoFlag := rfl
  unfold cancel_cmd
  by_cases h : (serWrite [27] st).echoFlag = true
  · rw [if_pos h]
    refine andThen_echo _ _ ((read1_echo _).trans hw) ?_
    intro v s hs
    exact hs
  · rw [if_neg h]
    exact hw

lemma convertResp_echo (rl : List (List Nat)) (st : EngState) :
    (convertResp rl st).finalState.echoFlag = st.echoFlag := by
  unfold convertResp
  rcases h : rl.map (fun l => l.take (l.length - 2)) with _ | ⟨x, _ | ⟨y, rest⟩⟩ <;>
    simp [h, PyResult.finalState]

lemma cmdFinish_echo (a : Args) (cmdB : List Nat) (rc tb : Bool)
    (rl : List (List Nat)) (st : EngState) :
    (cmdFinish a cmdB rc tb rl st).finalState.echoFlag = st.echoFlag := by
  simp only [cmdFinish]
  repeat' split
  all_goals first
    | exact (convertResp_echo _ _).trans rfl
    | rfl
    | (refine andThen_echo _ _ ((cancel_cmd_echo _).trans rfl) ?_
       intro v s hs
       exact hs)

lemma cmdPhase2_echo (a : Args) (cmdB : List Nat) (rc : Bool) (lines : Option Int)
    (tb : Bool) (rl : List (List Nat)) (st : EngState) :
    (cmdPhase2 a cmdB rc lines tb rl st).finalState.echoFlag = st.echoFlag := by
  unfold cmdPhase2
  refine andThen_echo _ _ ?_ ?_
  · cases rc with
    | false => rfl
    | true =>
      simp only [if_true]
      refine andThen_echo _ _ (read_until_echo st) ?_
      intro l s hs
      exact hs
  · intro rl2 s2 hs2
    rcases lines with _ | n
    · refine andThen_echo _ _ ((readlinesFn_echo s2).trans hs2) ?_
      intro ls s3 hs3
      exact (cmdFinish_echo a cmdB rc tb (rl2 ++ ls) s3).trans hs3
    · refine andThen_echo _ _ ((readN_echo n.toNat s2).trans hs2) ?_
      intro ls s3 hs3
      exact (cmdFinish_echo a cmdB rc tb (rl2 ++ ls) s3).trans hs3

lemma cmd_echo (a : Args) (arg : CmdArg) (rc : Bool) (lines : Option Int)
    (tmo : Option ℚ) (st : EngState) :
    (cmd a arg rc lines tmo st).finalState.echoFlag = st.echoFlag := by
  unfold cmd
  have hw : (serWrite (normalizeCmd arg)
      (if tmoTruthy tmo then setSerTimeout tmo st else st)).echoFlag =
      st.echoFlag := by
    cases htb : tmoTruthy tmo <;> simp [htb, serWrite, setSerTimeout]
  set st2 : EngState := serWrite (normalizeCmd arg)
    (if tmoTruthy tmo then setSerTimeout tmo st else st)
  by_cases he : st2.echoFlag = true
  · rw [if_pos he]
    refine andThen_echo _ _ ((read_until_echo st2).trans hw) ?_
    intro l s3 hs3
    by_cases hl : l ≠ normalizeCmd arg
    · rw [if_pos hl]
      rcases lines with _ | n
      · exact hs3
      · exact (cmdPhase2_echo a (normalizeCmd arg) rc (some (n - 1)) (tmoTruthy tmo)
          [l] s3).trans hs3
    · rw [if_neg hl]
      exact (cmdPhase2_echo a (normalizeCmd arg) rc lines (tmoTruthy tmo)
        [l] s3).trans hs3
  · rw [if_neg he]
    exact (cmdPhase2_echo a (normalizeCmd arg) rc lines (tmoTruthy tmo)
      [] st2).trans hw

/-- C9: the engine's stored echo-mode flag is invariantly `True`: it is
set to `True` in `__init__`, and for every call to the `echo` property
setter — any mode argument, any transport behavior — the stored flag is
unchanged, because `_echo_cmd` returns `None` and the comparison against
`"OK"` never succeeds. -/
theorem C9_echo_flag_invariant :
    (∀ ser : Serial, (initEngState ser).echoFlag = true) ∧
    (∀ (a : Args) (mode : Bool) (st : EngState),
      (echo_setter a mode st).finalState.echoFlag = st.echoFlag) := by
  constructor
  · intro ser; rfl
  · intro a mode st
    have hecho := cmd_echo a (.strArg (strBytes "A 1")) true none none st
    unfold echo_setter echo_cmd_fn
    cases hcc : cmd a (.strArg (strBytes "A 1")) true none none st with
    | ok r s2 =>
      rw [hcc] at hecho
      simp only [PyResult.finalState] at hecho
      simp [PyResult.andThen, PyResult.finalState, hecho]
    | exn e s2 =>
      rw [hcc] at hecho
      simpa [PyResult.andThen, PyResult.finalState] using hecho
    | blocked s2 =>
      rw [hcc] at hecho
      simpa [PyResult.andThen, PyResult.finalState] using hecho

/-! ### Evaluation lemmas for reads against a known oracle -/

lemma read_until_eval (st : EngState) (l : List Nat) (rest : List (List Nat))
    (h : st.ser.incoming = l :: rest) :
    read_until st = .ok l { st with ser := { st.ser with incoming := rest } } := by
  simp [read_until, h]

lemma readN_eval : ∀ (ls rest : List (List Nat)) (st : EngState),
    st.ser.incoming = ls ++ rest →
    readN ls.length st = .ok ls { st with ser := { st.ser with incoming := rest } } := by
  intro ls
  induction ls with
  | nil =>
    intro rest st h
    simp only [List.nil_append] at h
    subst h
    rfl
  | cons l ls ih =>
    intro rest st h
    rw [show (l :: ls).length = ls.length + 1 from rfl]
    unfold readN
    rw [read_until_eval st l (ls ++ rest) (by simpa using h)]
    simp only [PyResult.andThen_ok]
    rw [ih rest _ (by simp)]
    simp only [PyResult.andThen_ok]

/-! ### Non-success status codes cancel and raise (claim C7) -/

/-- C7: for every command with status parsing enabled (echo on), when the
line parsed as the status maps to a non-success `ReturnCode` (1–22),
exactly one cancel byte `0x1B` is written after the command itself, the
cancel byte's echo chunk is consumed, and `CommandFailed` carrying that
code is raised.  First conjunct: any fixed expected-line count; second
conjunct: the read-until-timeout mode (`lines=None`). -/
theorem C7_nonzero_status_cancels :
    (∀ (a : Args) (arg : CmdArg) (n : Int) (tmo : Option ℚ)
      (statusLine escEcho : List Nat) (extraLines rest : List (List Nat))
      (k : Int) (st : EngState),
      st.echoFlag = true →
      st.ser.incoming =
        normalizeCmd arg :: statusLine :: (extraLines ++ escEcho :: rest) →
      extraLines.length = n.toNat →
      pyIntParse statusLine = some k → 1 ≤ k → k ≤ 22 →
      cmd a arg true (some n) tmo st =
        .exn (.commandFailed k.toNat)
          { st with ser := { st.ser with
              incoming := rest,
              written := st.ser.written ++ [normalizeCmd arg, [27]],
              timeout := if tmoTruthy tmo then some (a.timeout : ℚ)
                         else st.ser.timeout } }) ∧
    (∀ (a : Args) (arg : CmdArg) (d : ℚ) (statusLine : List Nat)
      (restAll : List (List Nat)) (k : Int) (st : EngState),
      st.echoFlag = true →
      st.ser.timeout = some d →
      st.ser.incoming = normalizeCmd arg :: statusLine :: restAll →
      pyIntParse statusLine = some k → 1 ≤ k → k ≤ 22 →
      cmd a arg true none none st =
        .exn (.commandFailed k.toNat)
          { st with ser := { st.ser with
              incoming := [],
              written := st.ser.written ++ [normalizeCmd arg, [27]] } }) := by
  constructor
  · intro a arg n tmo statusLine escEcho extraLines rest k st hecho hinc hlen hk hk1 hk22
    have hknot : ¬ (k < 0 ∨ 22 < k) := by omega
    have hkne : k ≠ 0 := by omega
    cases htb : tmoTruthy tmo with
    | false =>
      have e1 : cmd a arg true (some n) tmo st =
          cmdPhase2 a (normalizeCmd arg) true (some n) false [normalizeCmd arg]
            { st with ser := { st.ser with
                incoming := statusLine :: (extraLines ++ escEcho :: rest),
                written := st.ser.written ++ [normalizeCmd arg] } } := by
        simp [cmd, htb, hecho, hinc, serWrite, read_until]
      rw [e1]
      have e2 : cmdPhase2 a (normalizeCmd arg) true (some n) false [normalizeCmd arg]
            { st with ser := { st.ser with
                incoming := statusLine :: (extraLines ++ escEcho :: rest),
                written := st.ser.written ++ [normalizeCmd arg] } } =
          cmdFinish a (normalizeCmd arg) true false
            (normalizeCmd arg :: statusLine :: extraLines)
            { st with ser := { st.ser with
                incoming := escEcho :: rest,
                written := st.ser.written ++ [normalizeCmd arg] } } := by
        simp only [cmdPhase2, if_true]
        rw [read_until_eval _ statusLine (extraLines ++ escEcho :: rest) (by simp)]
        simp only [PyResult.andThen_ok]
        rw [show n.toNat = extraLines.length from hlen.symm]
        rw [readN_eval extraLines (escEcho :: rest) _ (by simp)]
        simp only [PyResult.andThen_ok]
        simp
      rw [e2]
      simp only [cmdFinish]
      simp only [Bool.false_eq_true, if_false, hecho]
      simp only [List.head?_cons, if_pos, List.tail_cons]
      simp [hk, hknot, hkne, cancel_cmd, serWrite, read1, read_until, hecho]
    | true =>
      have e1 : cmd a arg true (some n) tmo st =
          cmdPhase2 a (normalizeCmd arg) true (some n) true [normalizeCmd arg]
            { st with ser := { st.ser with
                incoming := statusLine :: (extraLines ++ escEcho :: rest),
                written := st.ser.written ++ [normalizeCmd arg],
                timeout := tmo } } := by
        simp [cmd, htb, hecho, hinc, serWrite, setSerTimeout, read_until]
      rw [e1]
      have e2 : cmdPhase2 a (normalizeCmd arg) true (some n) true [normalizeCmd arg]
            { st with ser := { st.ser with
                incoming := statusLine :: (extraLines ++ escEcho :: rest),
                written := st.ser.written ++ [normalizeCmd arg],
                timeout := tmo } } =
          cmdFinish a (normalizeCmd arg) true true
            (normalizeCmd arg :: statusLine :: extraLines)
            { st with ser := { st.ser with
                incoming := escEcho :: rest,
                written := st.ser.written ++ [normalizeCmd arg],
                timeout := tmo } } := by
        simp only [cmdPhase2, if_true]
        rw [read_until_eval _ statusLine (extraLines ++ escEcho :: rest) (by simp)]
        simp only [PyResult.andThen_ok]
        rw [show n.toNat = extraLines.length from hlen.symm]
        rw [readN_eval extraLines (escEcho :: rest) _ (by simp)]
        simp only [PyResult.andThen_ok]
        simp
      rw [e2]
      simp only [cmdFinish, if_true, setSerTimeout]
      simp only [hecho]
      simp only [List.head?_cons, if_pos, List.tail_cons]
      simp [hk, hknot, hkne, cancel_cmd, serWrite, read1, read_until, hecho]
  · intro a arg d statusLine restAll k st hecho htmo hinc hk hk1 hk22
    have hknot : ¬ (k < 0 ∨ 22 < k) := by omega
    have hkne : k ≠ 0 := by omega
    have e1 : cmd a arg true none none st =
        cmdPhase2 a (normalizeCmd arg) true none false [normalizeCmd arg]
          { st with ser := { st.ser with
              incoming := statusLine :: restAll,
              written := st.ser.written ++ [normalizeCmd arg] } } := by
      simp [cmd, tmoTruthy, hecho, hinc, serWrite, read_until]
    rw [e1]
    have e2 : cmdPhase2 a (normalizeCmd arg) true none false [normalizeCmd arg]
          { st with ser := { st.ser with
              incoming := statusLine :: restAll,
              written := st.ser.written ++ [normalizeCmd arg] } } =
        cmdFinish a (normalizeCmd arg) true false
          (normalizeCmd arg :: statusLine :: restAll)
          { st with ser := { st.ser with
              incoming := [],
              written := st.ser.written ++ [normalizeCmd arg] } } := by
      simp only [cmdPhase2, if_true]
      rw [read_until_eval _ statusLine restAll (by simp)]
      simp only [PyResult.andThen_ok]
      simp [readlinesFn, htmo]
    rw [e2]
    simp only [cmdFinish]
    simp only [Bool.false_eq_true, if_false, hecho]
    simp only [List.head?_cons, if_pos, List.tail_cons]
    simp [hk, hknot, hkne, cancel_cmd, serWrite, read1, read_until, hecho, htmo]

/-- Shared concrete fixture: constructor arguments after `int()`. -/
def argsFix : Args :=
  { baud := 115200, stopbits := 1, timeout := 2, tgtclk := 12000, sync_timeout := 30 }

/-- Shared concrete fixture: a serial oracle with the default 2-second
timeout and the given future read chunks. -/
def stFix (inc : List (List Nat)) : EngState :=
  { ser := { incoming := inc, written := [], ctrl := [], timeout := some 2 },
    echoFlag := true }

/-- Witness for C7: the `J` command echoed back, answered with status 19
(`CODE_READ_PROTECTION_ENABLED`); the cancel byte and its echo follow. -/
theorem C7_nonzero_status_cancels_witness :
    pyIntParse [49, 57, 13, 10] = some 19 ∧
      cmd argsFix (.strArg [74]) true (some 0) none (stFix [[74, 13, 10],
          [49, 57, 13, 10], [27]]) =
        .exn (.commandFailed 19)
          { stFix [[74, 13, 10], [49, 57, 13, 10], [27]] with
            ser := { (stFix [[74, 13, 10], [49, 57, 13, 10], [27]]).ser with
              incoming := [],
              written := [[74, 13, 10], [27]],
              timeout := if tmoTruthy none then some ((argsFix).timeout : ℚ)
                         else (stFix [[74, 13, 10], [49, 57, 13, 10], [27]]).ser.timeout } } :=
  ⟨by decide, C7_nonzero_status_cancels.1 argsFix (.strArg [74]) 0 none
    [49, 57, 13, 10] [27] [] [] 19 (stFix [[74, 13, 10], [49, 57, 13, 10], [27]])
    (by decide) (by decide) (by decide) (by decide) (by decide) (by decide)⟩

/-! ### Echo stripping in the command channel (claim C8) -/

lemma tmoSplit (tmo : Option ℚ) (st : EngState) :
    (if tmoTruthy tmo then setSerTimeout tmo st else st) =
      { st with ser := { st.ser with
          timeout := if tmoTruthy tmo then tmo else st.ser.timeout } } := by
  cases htb : tmoTruthy tmo <;> simp [htb, setSerTimeout]

/-- C8 (amended): with echo on and no status parsing, a first line equal
to the sent command is stripped and does not count toward the response —
in fixed-count mode (conjunct 1) and in read-until-timeout mode
(conjunct 2).  A first line differing from the sent command is treated as
the start of the actual response in every fixed-count mode (conjunct 3);
in read-until-timeout mode (`lines=None`) it instead raises `TypeError`,
because the code decrements the `None` line count (conjunct 4). -/
theorem C8_echo_strip_amended :
    (∀ (a : Args) (arg : CmdArg) (n : Int) (tmo : Option ℚ)
      (extraLines rest : List (List Nat)) (st : EngState),
      st.echoFlag = true →
      st.ser.incoming = normalizeCmd arg :: (extraLines ++ rest) →
      extraLines.length = n.toNat →
      cmd a arg false (some n) tmo st =
        convertResp extraLines
          { st with ser := { st.ser with
              incoming := rest,
              written := st.ser.written ++ [normalizeCmd arg],
              timeout := if tmoTruthy tmo then some (a.timeout : ℚ)
                         else st.ser.timeout } }) ∧
    (∀ (a : Args) (arg : CmdArg) (d : ℚ) (restAll : List (List Nat))
      (st : EngState),
      st.echoFlag = true →
      st.ser.timeout = some d →
      st.ser.incoming = normalizeCmd arg :: restAll →
      cmd a arg false none none st =
        convertResp restAll
          { st with ser := { st.ser with
              incoming := [],
              written := st.ser.written ++ [normalizeCmd arg] } }) ∧
    (∀ (a : Args) (arg : CmdArg) (n : Int) (tmo : Option ℚ) (l : List Nat)
      (moreLines rest : List (List Nat)) (st : EngState),
      st.echoFlag = true →
      st.ser.incoming = l :: (moreLines ++ rest) →
      l ≠ normalizeCmd arg →
      moreLines.length = (n - 1).toNat →
      cmd a arg false (some n) tmo st =
        convertResp (l :: moreLines)
          { st with ser := { st.ser with
              incoming := rest,
              written := st.ser.written ++ [normalizeCmd arg],
              timeout := if tmoTruthy tmo then some (a.timeout : ℚ)
                         else st.ser.timeout } }) ∧
    (∀ (a : Args) (arg : CmdArg) (tmo : Option ℚ) (l : List Nat)
      (rest : List (List Nat)) (st : EngState),
      st.echoFlag = true →
      st.ser.incoming = l :: rest →
      l ≠ normalizeCmd arg →
      cmd a arg false none tmo st =
        .exn .typeError
          { st with ser := { st.ser with
              incoming := rest,
              written := st.ser.written ++ [normalizeCmd arg],
              timeout := if tmoTruthy tmo then tmo else st.ser.timeout } }) := by
  refine ⟨?_, ?_, ?_, ?_⟩
  · intro a arg n tmo extraLines rest st hecho hinc hlen
    have e1 : cmd a arg false (some n) tmo st =
        cmdPhase2 a (normalizeCmd arg) false (some n) (tmoTruthy tmo)
          [normalizeCmd arg]
          { st with ser := { st.ser with
              incoming := extraLines ++ rest,
              written := st.ser.written ++ [normalizeCmd arg],
              timeout := if tmoTruthy tmo then tmo else st.ser.timeout } } := by
      simp only [cmd]
      rw [tmoSplit]
      simp [serWrite, hecho, hinc, read_until]
    rw [e1]
    have e2 : cmdPhase2 a (normalizeCmd arg) false (some n) (tmoTruthy tmo)
          [normalizeCmd arg]
          { st with ser := { st.ser with
              incoming := extraLines ++ rest,
              written := st.ser.written ++ [normalizeCmd arg],
              timeout := if tmoTruthy tmo then tmo else st.ser.timeout } } =
        cmdFinish a (normalizeCmd arg) false (tmoTruthy tmo)
          (normalizeCmd arg :: extraLines)
          { st with ser := { st.ser with
              incoming := rest,
              written := st.ser.written ++ [normalizeCmd arg],
              timeout := if tmoTruthy tmo then tmo else st.ser.timeout } } := by
      simp only [cmdPhase2, Bool.false_eq_true, if_false, PyResult.andThen_ok]
      rw [show n.toNat = extraLines.length from hlen.symm]
      rw [readN_eval extraLines rest _ (by simp)]
      simp only [PyResult.andThen_ok]
      simp
    rw [e2]
    cases htb : tmoTruthy tmo <;>
      simp [cmdFinish, htb, setSerTimeout, hecho, List.head?_cons]
  · intro a arg d restAll st hecho htmo hinc
    have e1 : cmd a arg false none none st =
        cmdPhase2 a (normalizeCmd arg) false none false [normalizeCmd arg]
          { st with ser := { st.ser with
              incoming := restAll,
              written := st.ser.written ++ [normalizeCmd arg] } } := by
      simp [cmd, tmoTruthy, hecho, hinc, serWrite, read_until]
    rw [e1]
    have e2 : cmdPhase2 a (normalizeCmd arg) false none false [normalizeCmd arg]
          { st with ser := { st.ser with
              incoming := restAll,
              written := st.ser.written ++ [normalizeCmd arg] } } =
        cmdFinish a (normalizeCmd arg) false false
          (normalizeCmd arg :: restAll)
          { st with ser := { st.ser with
              incoming := [],
              written := st.ser.written ++ [normalizeCmd arg] } } := by
      simp only [cmdPhase2, Bool.false_eq_true, if_false, PyResult.andThen_ok]
      simp [readlinesFn, htmo]
    rw [e2]
    simp [cmdFinish, hecho, List.head?_cons]
  · intro a arg n tmo l moreLines rest st hecho hinc hne hlen
    have e1 : cmd a arg false (some n) tmo st =
        cmdPhase2 a (normalizeCmd arg) false (some (n - 1)) (tmoTruthy tmo) [l]
          { st with ser := { st.ser with
              incoming := moreLines ++ rest,
              written := st.ser.written ++ [normalizeCmd arg],
              timeout := if tmoTruthy tmo then tmo else st.ser.timeout } } := by
      simp only [cmd]
      rw [tmoSplit]
      simp [serWrite, hecho, hinc, read_until, hne]
    rw [e1]
    have e2 : cmdPhase2 a (normalizeCmd arg) false (some (n - 1)) (tmoTruthy tmo) [l]
          { st with ser := { st.ser with
              incoming := moreLines ++ rest,
              written := st.ser.written ++ [normalizeCmd arg],
              timeout := if tmoTruthy tmo then tmo else st.ser.timeout } } =
        cmdFinish a (normalizeCmd arg) false (tmoTruthy tmo) (l :: moreLines)
          { st with ser := { st.ser with
              incoming := rest,
              written := st.ser.written ++ [normalizeCmd arg],
              timeout := if tmoTruthy tmo then tmo else st.ser.timeout } } := by
      simp only [cmdPhase2, Bool.false_eq_true, if_false, PyResult.andThen_ok]
      rw [show (n - 1).toNat = moreLines.length from hlen.symm]
      rw [readN_eval moreLines rest _ (by simp)]
      simp only [PyResult.andThen_ok]
      simp
    rw [e2]
    cases htb : tmoTruthy tmo <;>
      simp [cmdFinish, htb, setSerTimeout, hecho, List.head?_cons, hne]
  · intro a arg tmo l rest st hecho hinc hne
    simp only [cmd]
    rw [tmoSplit]
    simp [serWrite, hecho, hinc, read_until, hne]

/-- Counterexample for C8 as stated: with `lines=None` (the
read-until-timeout mode) and a first line `"X\r\n"` differing from the
sent command `"K\r\n"`, the code raises `TypeError` instead of treating
the line as the start of the response. -/
theorem C8_echo_strip_counterexample :
    cmd argsFix (.strArg [75]) false none none (stFix [[88, 13, 10]]) =
      .exn .typeError
        { ser := { incoming := [], written := [[75, 13, 10]], ctrl := [],
                   timeout := some 2 },
          echoFlag := true } := by
  decide

/-- Witness for C8 (amended), conjunct 3: a mismatching first line with a
fixed line count becomes the head of the response. -/
theorem C8_echo_strip_amended_witness :
    ([91, 13, 10] : List Nat) ≠ normalizeCmd (.strArg [75]) ∧
      cmd argsFix (.strArg [75]) false (some 2) none
          (stFix [[91, 13, 10], [92, 13, 10]]) =
        convertResp [[91, 13, 10], [92, 13, 10]]
          { stFix [[91, 13, 10], [92, 13, 10]] with
            ser := { (stFix [[91, 13, 10], [92, 13, 10]]).ser with
              incoming := [],
              written := [[75, 13, 10]],
              timeout := if tmoTruthy none then some ((argsFix).timeout : ℚ)
                         else (stFix [[91, 13, 10], [92, 13, 10]]).ser.timeout } } :=
  ⟨by decide, C8_echo_strip_amended.2.2.1 argsFix (.strArg [75]) 2 none
    [91, 13, 10] [[92, 13, 10]] [] (stFix [[91, 13, 10], [92, 13, 10]])
    (by decide) (by decide) (by decide) (by decide)⟩

/-! ### Step lemmas for the block transfer receiver -/

/-- Sending an acknowledgment (`OK`/`RESEND`) during the transfer: `cmd`
with no status line and zero further lines writes the CRLF-terminated
word and consumes exactly one chunk — the echo read. -/
lemma cmd_ack_eval (a : Args) (s : List Nat) (echoChunk : List Nat)
    (rest : List (List Nat)) (st : EngState)
    (hecho : st.echoFlag = true)
    (hinc : st.ser.incoming = echoChunk :: rest) :
    ∃ r, cmd a (.strArg s) false (some 0) none st =
      .ok r { st with ser := { st.ser with
          incoming := rest,
          written := st.ser.written ++ [normalizeCmd (.strArg s)] } } := by
  by_cases hec : echoChunk = normalizeCmd (.strArg s)
  · refine ⟨.noneR, ?_⟩
    have e1 : cmd a (.strArg s) false (some 0) none st =
        cmdPhase2 a (normalizeCmd (.strArg s)) false (some 0) false [echoChunk]
          { st with ser := { st.ser with
              incoming := rest,
              written := st.ser.written ++ [normalizeCmd (.strArg s)] } } := by
      simp [cmd, tmoTruthy, hecho, hinc, serWrite, read_until, hec]
    rw [e1]
    simp [cmdPhase2, readN, cmdFinish, hecho, hec, convertResp]
  · refine ⟨.one (echoChunk.take (echoChunk.length - 2)), ?_⟩
    have e1 : cmd a (.strArg s) false (some 0) none st =
        cmdPhase2 a (normalizeCmd (.strArg s)) false (some (0 - 1)) false [echoChunk]
          { st with ser := { st.ser with
              incoming := rest,
              written := st.ser.written ++ [normalizeCmd (.strArg s)] } } := by
      simp [cmd, tmoTruthy, hecho, hinc, serWrite, read_until, hec]
    rw [e1]
    simp [cmdPhase2, readN, cmdFinish, hecho, hec, convertResp]

/-- One loop iteration on a checksum line that matches: acknowledge `OK`,
append the block, reset the accumulator, count the block. -/
lemma rdl_step_ok (a : Args) (size : Nat) (tmo start now : ℚ) (clock : List ℚ)
    (data block_data : List Nat) (blocks : Nat) (line echoChunk : List Nat)
    (rest : List (List Nat)) (k : Int) (st : EngState)
    (hsz : data.length < size)
    (htime : ¬ (now - start > tmo))
    (hecho : st.echoFlag = true)
    (hinc : st.ser.incoming = line :: echoChunk :: rest)
    (hk : pyIntParse line = some k)
    (hck : (checksum block_data : Int) = k) :
    read_data_loop a size tmo start (now :: clock) data block_data blocks st =
      read_data_loop a size tmo start clock (data ++ block_data) [] (blocks + 1)
        { st with ser := { st.ser with
            incoming := rest,
            written := st.ser.written ++ [strBytes "OK" ++ [13, 10]] } } := by
  obtain ⟨r, hr⟩ := cmd_ack_eval a (strBytes "OK") echoChunk rest
    { st with ser := { st.ser with incoming := echoChunk :: rest } }
    hecho (by simp)
  rw [read_data_loop]
  rw [if_pos hsz, if_neg htime]
  rw [read_until_eval _ line (echoChunk :: rest) hinc]
  simp only [PyResult.andThen_ok, hk]
  rw [if_pos hck]
  rw [hr]
  simp only [PyResult.andThen_ok]
  have : normalizeCmd (.strArg (strBytes "OK")) = strBytes "OK" ++ [13, 10] := by
    decide
  simp [this]

/-- One loop iteration on a checksum line that does not match: answer
`RESEND`, keep the output buffer, reset the accumulator; no error is
raised, the loop just continues. -/
lemma rdl_step_resend (a : Args) (size : Nat) (tmo start now : ℚ) (clock : List ℚ)
    (data block_data : List Nat) (blocks : Nat) (line echoChunk : List Nat)
    (rest : List (List Nat)) (k : Int) (st : EngState)
    (hsz : data.length < size)
    (htime : ¬ (now - start > tmo))
    (hecho : st.echoFlag = true)
    (hinc : st.ser.incoming = line :: echoChunk :: rest)
    (hk : pyIntParse line = some k)
    (hck : (checksum block_data : Int) ≠ k) :
    read_data_loop a size tmo start (now :: clock) data block_data blocks st =
      read_data_loop a size tmo start clock data [] blocks
        { st with ser := { st.ser with
            incoming := rest,
            written := st.ser.written ++ [strBytes "RESEND" ++ [13, 10]] } } := by
  obtain ⟨r, hr⟩ := cmd_ack_eval a (strBytes "RESEND") echoChunk rest
    { st with ser := { st.ser with incoming := echoChunk :: rest } }
    hecho (by simp)
  rw [read_data_loop]
  rw [if_pos hsz, if_neg htime]
  rw [read_until_eval _ line (echoChunk :: rest) hinc]
  simp only [PyResult.andThen_ok, hk]
  rw [if_neg hck]
  rw [hr]
  simp only [PyResult.andThen_ok]
  have : normalizeCmd (.strArg (strBytes "RESEND")) = strBytes "RESEND" ++ [13, 10] := by
    decide
  simp [this]

/-- One loop iteration on a non-integer line: decode it and extend the
current block accumulator. -/
lemma rdl_step_line (a : Args) (size : Nat) (tmo start now : ℚ) (clock : List ℚ)
    (data block_data : List Nat) (blocks : Nat) (line : List Nat)
    (rest : List (List Nat)) (dec : List Nat) (st : EngState)
    (hsz : data.length < size)
    (htime : ¬ (now - start > tmo))
    (hinc : st.ser.incoming = line :: rest)
    (hk : pyIntParse line = none)
    (hdec : uudecode line = .ok dec) :
    read_data_loop a size tmo start (now :: clock) data block_data blocks st =
      read_data_loop a size tmo start clock data (block_data ++ dec) blocks
        { st with ser := { st.ser with incoming := rest } } := by
  rw [read_data_loop]
  rw [if_pos hsz, if_neg htime]
  rw [read_until_eval _ line rest hinc]
  simp only [PyResult.andThen_ok, hk, hdec]

/-- C2: whenever a line parses as a decimal integer equal to the
checksum (32-bit running byte sum) of the block bytes accumulated so far,
the receiver sends `OK`, appends exactly that block to the output buffer
once, increments the block counter, and resets the block accumulator to
empty; the loop then continues. -/
theorem C2_checksum_match_appends (a : Args) (size : Nat)
    (tmo start now : ℚ) (clock : List ℚ) (data block_data : List Nat)
    (blocks : Nat) (line echoChunk : List Nat) (rest : List (List Nat))
    (k : Int) (st : EngState)
    (hsz : data.length < size)
    (htime : ¬ (now - start > tmo))
    (hecho : st.echoFlag = true)
    (hinc : st.ser.incoming = line :: echoChunk :: rest)
    (hk : pyIntParse line = some k)
    (hck : (checksum block_data : Int) = k) :
    read_data_loop a size tmo start (now :: clock) data block_data blocks st =
      read_data_loop a size tmo start clock (data ++ block_data) [] (blocks + 1)
        { st with ser := { st.ser with
            incoming := rest,
            written := st.ser.written ++ [strBytes "OK" ++ [13, 10]] } } :=
  rdl_step_ok a size tmo start now clock data block_data blocks line echoChunk
    rest k st hsz htime hecho hinc hk hck

/-- Witness for C2: block bytes `[1,2,3,4,5,6]` already accumulated, the
checksum line `"21\r\n"` arrives, the `OK` acknowledgment's echo follows. -/
theorem C2_checksum_match_appends_witness :
    pyIntParse [50, 49, 13, 10] = some 21 ∧
      (checksum [1, 2, 3, 4, 5, 6] : Int) = 21 ∧
      read_data_loop argsFix 6 60 0 [1] [] [1, 2, 3, 4, 5, 6] 0
          (stFix [[50, 49, 13, 10], [79, 75, 13, 10]]) =
        read_data_loop argsFix 6 60 0 [] [1, 2, 3, 4, 5, 6] [] 1
          { stFix [[50, 49, 13, 10], [79, 75, 13, 10]] with
            ser := { (stFix [[50, 49, 13, 10], [79, 75, 13, 10]]).ser with
              incoming := [],
              written := [strBytes "OK" ++ [13, 10]] } } :=
  ⟨by decide, by decide,
    C2_checksum_match_appends argsFix 6 60 0 1 [] [] [1, 2, 3, 4, 5, 6] 0
      [50, 49, 13, 10] [79, 75, 13, 10] [] 21
      (stFix [[50, 49, 13, 10], [79, 75, 13, 10]])
      (by decide) (by norm_num) (by decide) (by decide) (by decide) (by decide)⟩

/-! ### Multi-line blocks and the resend protocol (claims C3, C4) -/

/-- The bytes carried by a run of encoded data lines: each line must not
parse as an integer (else the receiver would treat it as a checksum line)
and must decode; the decoded chunks concatenate. -/
def linesDecode : List (List Nat) → Option (List Nat)
  | [] => some []
  | l :: rest =>
    match pyIntParse l, uudecode l with
    | none, .ok d => (linesDecode rest).map (fun ds => d ++ ds)
    | _, _ => none

/-- Feeding a run of encoded data lines into the receive loop extends the
block accumulator by their decoded bytes and consumes one clock reading
per line. -/
lemma rdl_feed_lines (a : Args) (size : Nat) (tmo start : ℚ) :
    ∀ (lines : List (List Nat)) (κ : List ℚ) (data bd : List Nat) (blocks : Nat)
      (σ : List (List Nat)) (st : EngState) (B : List Nat),
      linesDecode lines = some B →
      lines.length ≤ κ.length →
      (∀ t ∈ κ, ¬ (t - start > tmo)) →
      data.length < size →
      st.ser.incoming = lines ++ σ →
      read_data_loop a size tmo start κ data bd blocks st =
        read_data_loop a size tmo start (κ.drop lines.length) data (bd ++ B) blocks
          { st with ser := { st.ser with incoming := σ } } := by
  intro lines
  induction lines with
  | nil =>
    intro κ data bd blocks σ st B hdec hlen htimes hsz hinc
    simp only [linesDecode, Option.some.injEq] at hdec
    subst hdec
    simp only [List.nil_append] at hinc
    subst hinc
    simp
  | cons l ls ih =>
    intro κ data bd blocks σ st B hdec hlen htimes hsz hinc
    cases hp : pyIntParse l with
    | some k => simp [linesDecode, hp] at hdec
    | none =>
      cases hu : uudecode l with
      | error e => simp [linesDecode, hp, hu] at hdec
      | ok d =>
        simp only [linesDecode, hp, hu] at hdec
        rcases hds : linesDecode ls with _ | B'
        · rw [hds] at hdec; simp at hdec
        · rw [hds] at hdec
          simp at hdec
          subst hdec
          cases κ with
          | nil => simp at hlen
          | cons t κ' =>
            have ht : ¬ (t - start > tmo) := htimes t (by simp)
            rw [rdl_step_line a size tmo start t κ' data bd blocks l (ls ++ σ) d st
              hsz ht (by simp [hinc]) hp hu]
            rw [ih κ' data (bd ++ d) blocks σ _ B' hds (by simpa using hlen)
              (fun t' ht' => htimes t' (by simp [ht'])) hsz (by simp)]
            simp [List.append_assoc]

/-- C3: a checksum line that differs from the recomputed checksum makes
the receiver send `RESEND`, append nothing, and reset the accumulator,
with no error surfaced (the loop continues; conjunct 1); a subsequent
retransmission of the same block followed by the matching checksum is
then appended exactly once — no duplication across the retry
(conjunct 2). -/
theorem C3_checksum_mismatch_resend :
    (∀ (a : Args) (size : Nat) (tmo start now : ℚ) (clock : List ℚ)
      (data block_data : List Nat) (blocks : Nat) (line echoChunk : List Nat)
      (rest : List (List Nat)) (k : Int) (st : EngState),
      data.length < size →
      ¬ (now - start > tmo) →
      st.echoFlag = true →
      st.ser.incoming = line :: echoChunk :: rest →
      pyIntParse line = some k →
      (checksum block_data : Int) ≠ k →
      read_data_loop a size tmo start (now :: clock) data block_data blocks st =
        read_data_loop a size tmo start clock data [] blocks
          { st with ser := { st.ser with
              incoming := rest,
              written := st.ser.written ++ [strBytes "RESEND" ++ [13, 10]] } }) ∧
    (∀ (a : Args) (size : Nat) (tmo start : ℚ) (κ : List ℚ) (data : List Nat)
      (blocks : Nat) (blockLines : List (List Nat))
      (B badCk ebad goodCk egood : List Nat) (rest : List (List Nat))
      (kb : Int) (st : EngState),
      st.echoFlag = true →
      linesDecode blockLines = some B →
      st.ser.incoming = blockLines ++ badCk :: ebad ::
        (blockLines ++ goodCk :: egood :: rest) →
      pyIntParse badCk = some kb →
      (checksum B : Int) ≠ kb →
      pyIntParse goodCk = some ((checksum B : Nat) : Int) →
      2 * blockLines.length + 2 ≤ κ.length →
      (∀ t ∈ κ, ¬ (t - start > tmo)) →
      data.length < size →
      read_data_loop a size tmo start κ data [] blocks st =
        read_data_loop a size tmo start (κ.drop (2 * blockLines.length + 2))
          (data ++ B) [] (blocks + 1)
          { st with ser := { st.ser with
              incoming := rest,
              written := st.ser.written ++
                [strBytes "RESEND" ++ [13, 10], strBytes "OK" ++ [13, 10]] } }) := by
  constructor
  · intro a size tmo start now clock data block_data blocks line echoChunk rest k st
      hsz htime hecho hinc hk hck
    exact rdl_step_resend a size tmo start now clock data block_data blocks line
      echoChunk rest k st hsz htime hecho hinc hk hck
  · intro a size tmo start κ data blocks blockLines B badCk ebad goodCk egood rest
      kb st hecho hblk hinc hkb hckb hkg hlen htimes hsz
    have hL : blockLines.length ≤ κ.length := by omega
    rcases hk1 : κ.drop blockLines.length with _ | ⟨t1, κ1⟩
    · exfalso
      have := congrArg List.length hk1
      simp at this
      omega
    have hκ1 : κ1 = κ.drop (blockLines.length + 1) := by
      rw [← List.tail_drop, hk1]
      rfl
    have ht1 : ¬ (t1 - start > tmo) :=
      htimes t1 (List.drop_subset _ _ (by rw [hk1]; exact List.mem_cons_self _ _))
    have hmem1 : ∀ t ∈ κ1, t ∈ κ := by
      intro t htm
      rw [hκ1] at htm
      exact List.drop_subset _ _ htm
    rcases hk2 : κ1.drop blockLines.length with _ | ⟨t2, κ2⟩
    · exfalso
      have := congrArg List.length hk2
      rw [hκ1] at this
      simp at this
      omega
    have hκ2 : κ2 = κ.drop (2 * blockLines.length + 2) := by
      have h0 : κ2 = (κ1.drop blockLines.length).tail := by rw [hk2]; rfl
      rw [h0, List.tail_drop, hκ1, List.drop_drop]
      congr 1
      omega
    have ht2 : ¬ (t2 - start > tmo) :=
      htimes t2 (hmem1 t2 (List.drop_subset _ _
        (by rw [hk2]; exact List.mem_cons_self _ _)))
    calc read_data_loop a size tmo start κ data [] blocks st
        = read_data_loop a size tmo start (κ.drop blockLines.length) data B blocks
            { st with ser := { st.ser with
                incoming := badCk :: ebad ::
                  (blockLines ++ goodCk :: egood :: rest) } } := by
          rw [rdl_feed_lines a size tmo start blockLines κ data [] blocks
            (badCk :: ebad :: (blockLines ++ goodCk :: egood :: rest)) st B hblk hL
            htimes hsz hinc]
          simp
      _ = read_data_loop a size tmo start κ1 data [] blocks
            { st with ser := { st.ser with
                incoming := blockLines ++ goodCk :: egood :: rest,
                written := st.ser.written ++ [strBytes "RESEND" ++ [13, 10]] } } := by
          rw [hk1, rdl_step_resend a size tmo start t1 κ1 data B blocks badCk ebad
            (blockLines ++ goodCk :: egood :: rest) kb
            { st with ser := { st.ser with
                incoming := badCk :: ebad ::
                  (blockLines ++ goodCk :: egood :: rest) } }
            hsz ht1 (by simp [hecho]) (by simp) hkb (by simpa using hckb)]
      _ = read_data_loop a size tmo start (κ1.drop blockLines.length) data B blocks
            { st with ser := { st.ser with
                incoming := goodCk :: egood :: rest,
                written := st.ser.written ++ [strBytes "RESEND" ++ [13, 10]] } } := by
          rw [rdl_feed_lines a size tmo start blockLines κ1 data [] blocks
            (goodCk :: egood :: rest)
            { st with ser := { st.ser with
                incoming := blockLines ++ goodCk :: egood :: rest,
                written := st.ser.written ++ [strBytes "RESEND" ++ [13, 10]] } }
            B hblk (by rw [hκ1]; simp; omega)
            (fun t' ht' => htimes t' (hmem1 t' ht')) hsz (by simp)]
          simp
      _ = read_data_loop a size tmo start κ2 (data ++ B) [] (blocks + 1)
            { st with ser := { st.ser with
                incoming := rest,
                written := st.ser.written ++
                  [strBytes "RESEND" ++ [13, 10], strBytes "OK" ++ [13, 10]] } } := by
          rw [hk2, rdl_step_ok a size tmo start t2 κ2 data B (blocks) goodCk egood
            rest ((checksum B : Nat) : Int)
            { st with ser := { st.ser with
                incoming := goodCk :: egood :: rest,
                written := st.ser.written ++ [strBytes "RESEND" ++ [13, 10]] } }
            hsz ht2 (by simp [hecho]) (by simp) hkg (by simp)]
          simp
      _ = read_data_loop a size tmo start (κ.drop (2 * blockLines.length + 2))
            (data ++ B) [] (blocks + 1)
            { st with ser := { st.ser with
                incoming := rest,
                written := st.ser.written ++
                  [strBytes "RESEND" ++ [13, 10], strBytes "OK" ++ [13, 10]] } } := by
          rw [hκ2]

/-- Witness for C3 (conjunct 1): accumulator holds `[1,2,3]`
(checksum 6), the checksum line says 99, so `RESEND` is sent and nothing
is appended. -/
theorem C3_checksum_mismatch_resend_witness :
    pyIntParse [57, 57, 13, 10] = some 99 ∧
      (checksum [1, 2, 3] : Int) ≠ 99 ∧
      read_data_loop argsFix 8 60 0 [1] [] [1, 2, 3] 0
          (stFix [[57, 57, 13, 10], [13, 10]]) =
        read_data_loop argsFix 8 60 0 [] [] [] 0
          { stFix [[57, 57, 13, 10], [13, 10]] with
            ser := { (stFix [[57, 57, 13, 10], [13, 10]]).ser with
              incoming := [],
              written := [strBytes "RESEND" ++ [13, 10]] } } :=
  ⟨by decide, by decide,
    C3_checksum_mismatch_resend.1 argsFix 8 60 0 1 [] [] [1, 2, 3] 0
      [57, 57, 13, 10] [13, 10] [] 99 (stFix [[57, 57, 13, 10], [13, 10]])
      (by decide) (by norm_num) (by decide) (by decide) (by decide) (by decide)⟩

/-! ### End-to-end memory read (claim C4) -/

/-- One checksummed block as the target transmits it: its encoded data
lines, the checksum line, the chunk the host's `OK` echo read consumes,
and the payload the lines decode to. -/
structure SentBlock where
  lines : List (List Nat)
  ckLine : List Nat
  ackEcho : List Nat
  payload : List Nat
deriving DecidableEq, Repr

/-- A well-formed transmitted block: the data lines decode to the
payload (and none parses as an integer), the checksum line carries the
true checksum, and the payload is nonempty. -/
def SentBlock.wf (b : SentBlock) : Prop :=
  linesDecode b.lines = some b.payload ∧
  pyIntParse b.ckLine = some ((checksum b.payload : Nat) : Int) ∧
  b.payload ≠ []

instance (b : SentBlock) : Decidable b.wf := by
  unfold SentBlock.wf
  infer_instance

/-- The chunks one block occupies on the wire, in read order. -/
def SentBlock.chunks (b : SentBlock) : List (List Nat) :=
  b.lines ++ [b.ckLine, b.ackEcho]

/-- All chunks of a sequence of blocks. -/
def blocksChunks (bs : List SentBlock) : List (List Nat) :=
  (bs.map SentBlock.chunks).flatten

/-- The bytes a sequence of blocks carries. -/
def blocksPayload (bs : List SentBlock) : List Nat :=
  (bs.map SentBlock.payload).flatten

/-- Running the receive loop over a sequence of well-formed blocks whose
payloads sum exactly to the remaining target size: every block is
acknowledged `OK` and appended once, and the loop terminates with the
default timeout restored. -/
lemma rdl_run_blocks (a : Args) (size : Nat) (tmo start : ℚ) :
    ∀ (bs : List SentBlock) (κ : List ℚ) (data : List Nat) (blocks : Nat)
      (rest : List (List Nat)) (st : EngState),
      (∀ b ∈ bs, b.wf) →
      data.length + (blocksPayload bs).length = size →
      (blocksChunks bs).length ≤ κ.length →
      (∀ t ∈ κ, ¬ (t - start > tmo)) →
      st.echoFlag = true →
      st.ser.incoming = blocksChunks bs ++ rest →
      read_data_loop a size tmo start κ data [] blocks st =
        .ok (data ++ blocksPayload bs)
          { st with ser := { st.ser with
              incoming := rest,
              written := st.ser.written ++
                (bs.map fun _ => strBytes "OK" ++ [13, 10]),
              timeout := some (a.timeout : ℚ) } } := by
  intro bs
  induction bs with
  | nil =>
    intro κ data blocks rest st hwf hsum hlen htimes hecho hinc
    simp only [blocksChunks, blocksPayload, List.map_nil, List.flatten_nil,
      List.nil_append, List.length_nil, List.append_nil] at hsum hinc ⊢
    rw [read_data_loop.eq_def, if_neg (by omega)]
    subst hinc
    simp [setSerTimeout]
  | cons b bs ih =>
    intro κ data blocks rest st hwf hsum hlen htimes hecho hinc
    obtain ⟨hbl, hbc, hbp⟩ := hwf b (List.mem_cons_self _ _)
    have hwf' : ∀ b' ∈ bs, b'.wf := fun b' hb' => hwf b' (List.mem_cons_of_mem _ hb')
    have hpay : blocksPayload (b :: bs) = b.payload ++ blocksPayload bs := by
      simp [blocksPayload]
    have hchk : blocksChunks (b :: bs) = b.lines ++
        (b.ckLine :: b.ackEcho :: blocksChunks bs) := by
      simp [blocksChunks, SentBlock.chunks]
    have hsz : data.length < size := by
      rw [hpay] at hsum
      simp at hsum
      have : b.payload.length ≠ 0 := by
        intro h0
        exact hbp (List.length_eq_zero.mp h0)
      omega
    have hLκ : b.lines.length ≤ κ.length := by
      rw [hchk] at hlen
      simp at hlen
      omega
    rcases hk1 : κ.drop b.lines.length with _ | ⟨t1, κ1⟩
    · exfalso
      have := congrArg List.length hk1
      rw [hchk] at hlen
      simp at this hlen
      omega
    have hκ1 : κ1 = κ.drop (b.lines.length + 1) := by
      rw [← List.tail_drop, hk1]
      rfl
    have ht1 : ¬ (t1 - start > tmo) :=
      htimes t1 (List.drop_subset _ _ (by rw [hk1]; exact List.mem_cons_self _ _))
    have hmem1 : ∀ t ∈ κ1, t ∈ κ := by
      intro t htm
      rw [hκ1] at htm
      exact List.drop_subset _ _ htm
    calc read_data_loop a size tmo start κ data [] blocks st
        = read_data_loop a size tmo start (κ.drop b.lines.length) data b.payload
            blocks
            { st with ser := { st.ser with
                incoming := b.ckLine :: b.ackEcho :: (blocksChunks bs ++ rest) } } := by
          rw [rdl_feed_lines a size tmo start b.lines κ data [] blocks
            (b.ckLine :: b.ackEcho :: (blocksChunks bs ++ rest)) st b.payload hbl
            hLκ htimes hsz (by rw [hinc, hchk]; simp)]
          simp
      _ = read_data_loop a size tmo start κ1 (data ++ b.payload) [] (blocks + 1)
            { st with ser := { st.ser with
                incoming := blocksChunks bs ++ rest,
                written := st.ser.written ++ [strBytes "OK" ++ [13, 10]] } } := by
          rw [hk1, rdl_step_ok a size tmo start t1 κ1 data b.payload blocks b.ckLine
            b.ackEcho (blocksChunks bs ++ rest) ((checksum b.payload : Nat) : Int)
            { st with ser := { st.ser with
                incoming := b.ckLine :: b.ackEcho :: (blocksChunks bs ++ rest) } }
            hsz ht1 (by simp [hecho]) (by simp) hbc (by simp)]
      _ = .ok ((data ++ b.payload) ++ blocksPayload bs)
            { st with ser := { st.ser with
                incoming := rest,
                written := (st.ser.written ++ [strBytes "OK" ++ [13, 10]]) ++
                  (bs.map fun _ => strBytes "OK" ++ [13, 10]),
                timeout := some (a.timeout : ℚ) } } := by
          rw [ih κ1 (data ++ b.payload) (blocks + 1) rest
            { st with ser := { st.ser with
                incoming := blocksChunks bs ++ rest,
                written := st.ser.written ++ [strBytes "OK" ++ [13, 10]] } }
            hwf'
            (by rw [hpay] at hsum; simp at hsum ⊢; omega)
            (by
              have h5 : (blocksChunks (b :: bs)).length =
                  b.lines.length + 2 + (blocksChunks bs).length := by
                rw [hchk]; simp; omega
              rw [hκ1, List.length_drop]
              omega)
            (fun t' ht' => htimes t' (hmem1 t' ht')) (by simp [hecho]) (by simp)]
      _ = .ok (data ++ blocksPayload (b :: bs))
            { st with ser := { st.ser with
                incoming := rest,
                written := st.ser.written ++
                  ((b :: bs).map fun _ => strBytes "OK" ++ [13, 10]),
                timeout := some (a.timeout : ℚ) } } := by
          rw [hpay]
          simp

/-- A successful command round trip used by `read_memory`'s `R` command:
echo line matches, the status line parses as 0 (`CMD_SUCCESS`), zero
further lines. -/
lemma cmd_status0_eval (a : Args) (arg : CmdArg) (statusLine : List Nat)
    (rest : List (List Nat)) (st : EngState)
    (hecho : st.echoFlag = true)
    (hinc : st.ser.incoming = normalizeCmd arg :: statusLine :: rest)
    (hk : pyIntParse statusLine = some 0) :
    cmd a arg true (some 0) none st =
      .ok .noneR { st with ser := { st.ser with
          incoming := rest,
          written := st.ser.written ++ [normalizeCmd arg] } } := by
  have e1 : cmd a arg true (some 0) none st =
      cmdPhase2 a (normalizeCmd arg) true (some 0) false [normalizeCmd arg]
        { st with ser := { st.ser with
            incoming := statusLine :: rest,
            written := st.ser.written ++ [normalizeCmd arg] } } := by
    simp [cmd, tmoTruthy, hecho, hinc, serWrite, read_until]
  rw [e1]
  have e2 : cmdPhase2 a (normalizeCmd arg) true (some 0) false [normalizeCmd arg]
        { st with ser := { st.ser with
            incoming := statusLine :: rest,
            written := st.ser.written ++ [normalizeCmd arg] } } =
      cmdFinish a (normalizeCmd arg) true false [normalizeCmd arg, statusLine]
        { st with ser := { st.ser with
            incoming := rest,
            written := st.ser.written ++ [normalizeCmd arg] } } := by
    simp only [cmdPhase2, if_true]
    rw [read_until_eval _ statusLine rest (by simp)]
    simp [readN]
  rw [e2]
  simp [cmdFinish, hecho, hk, convertResp]

/-- C4 (amended): for a word-aligned target size, when the target answers
the `R` command with its echo, a success status, and a sequence of
well-formed checksummed blocks whose payloads sum exactly to the target
size, `read_memory` returns exactly those bytes — every one from a block
whose checksum validated before acceptance — acknowledging each block
once and restoring the default timeout.  (As stated the claim is false:
when a validated block overshoots the boundary the returned buffer
exceeds the target size, see the counterexample.) -/
theorem C4_read_memory_amended (a : Args) (addr size : Nat) (tmo start : ℚ)
    (κ : List ℚ) (status0 : List Nat) (bs : List SentBlock)
    (rest : List (List Nat)) (st : EngState)
    (haddr : addr % 4 = 0) (hsize : size % 4 = 0)
    (hecho : st.echoFlag = true)
    (hinc : st.ser.incoming =
      normalizeCmd (.strArg (strBytes "R " ++ decRepr addr ++ strBytes " " ++
        decRepr size)) :: status0 :: (blocksChunks bs ++ rest))
    (hst0 : pyIntParse status0 = some 0)
    (hwf : ∀ b ∈ bs, b.wf)
    (hsum : (blocksPayload bs).length = size)
    (hκ : (blocksChunks bs).length ≤ κ.length)
    (htimes : ∀ t ∈ κ, ¬ (t - start > tmo)) :
    read_memory a addr size tmo (start :: κ) st =
      .ok (blocksPayload bs)
        { st with ser := { st.ser with
            incoming := rest,
            written := st.ser.written ++
              normalizeCmd (.strArg (strBytes "R " ++ decRepr addr ++
                strBytes " " ++ decRepr size)) ::
              (bs.map fun _ => strBytes "OK" ++ [13, 10]),
            timeout := some (a.timeout : ℚ) } } := by
  simp only [read_memory]
  rw [if_neg (by omega), if_neg (by omega)]
  rw [cmd_status0_eval a
    (.strArg (strBytes "R " ++ decRepr addr ++ strBytes " " ++ decRepr size))
    status0 (blocksChunks bs ++ rest) st hecho hinc hst0]
  simp only [PyResult.andThen_ok]
  simp only [read_data]
  rw [rdl_run_blocks a size tmo start bs κ [] 0 rest
    (setSerTimeout none
      { st with ser := { st.ser with
          incoming := blocksChunks bs ++ rest,
          written := st.ser.written ++
            [normalizeCmd (.strArg (strBytes "R " ++ decRepr addr ++
              strBytes " " ++ decRepr size))] } })
    hwf (by simpa using hsum) hκ htimes (by simp [setSerTimeout, hecho])
    (by simp [setSerTimeout])]
  simp [setSerTimeout]

/-- A transfer whose single validated block overshoots the requested
size: the loop exits only after appending the whole block, so the
returned buffer is the full block. -/
lemma rdl_one_big_block (a : Args) (size : Nat) (tmo start t1 t2 : ℚ)
    (κ : List ℚ) (line ck echoChunk : List Nat) (rest : List (List Nat))
    (dec : List Nat) (st : EngState)
    (hecho : st.echoFlag = true)
    (hinc : st.ser.incoming = line :: ck :: echoChunk :: rest)
    (hline : pyIntParse line = none)
    (hdec : uudecode line = .ok dec)
    (hck : pyIntParse ck = some ((checksum dec : Nat) : Int))
    (ht1 : ¬ (t1 - start > tmo)) (ht2 : ¬ (t2 - start > tmo))
    (hsz : 0 < size) (hover : size ≤ dec.length) :
    read_data a size tmo (start :: t1 :: t2 :: κ) st =
      .ok dec
        { st with ser := { st.ser with
            incoming := rest,
            written := st.ser.written ++ [strBytes "OK" ++ [13, 10]],
            timeout := some (a.timeout : ℚ) } } := by
  simp only [read_data]
  rw [rdl_step_line a size tmo start t1 (t2 :: κ) [] [] 0 line
    (ck :: echoChunk :: rest) dec (setSerTimeout none st) hsz ht1
    (by simp [setSerTimeout, hinc]) hline hdec]
  rw [rdl_step_ok a size tmo start t2 κ [] ([] ++ dec) 0 ck echoChunk rest
    ((checksum dec : Nat) : Int)
    { setSerTimeout none st with ser := { (setSerTimeout none st).ser with
        incoming := ck :: echoChunk :: rest } }
    hsz ht2 (by simp [setSerTimeout, hecho]) (by simp) hck (by simp)]
  rw [read_data_loop.eq_def, if_neg (by simp; omega)]
  simp [setSerTimeout]

/-- Counterexample for C4 as stated: a memory read of 4 bytes answered by
a single validated 6-byte block returns 6 bytes, not 4. -/
theorem C4_read_memory_counterexample :
    (read_memory argsFix 0 4 60 [0, 1, 2]
        (stFix [[82, 32, 48, 32, 52, 13, 10], [48, 13, 10],
          [38, 32, 48, 40, 35, 33, 32, 52, 38, 13, 10], [50, 49, 13, 10],
          [79, 75, 13, 10]])).valueOf = some [1, 2, 3, 4, 5, 6] := by
  simp only [read_memory]
  rw [if_neg (by decide), if_neg (by decide)]
  rw [cmd_status0_eval argsFix
    (.strArg (strBytes "R " ++ decRepr 0 ++ strBytes " " ++ decRepr 4))
    [48, 13, 10]
    [[38, 32, 48, 40, 35, 33, 32, 52, 38, 13, 10], [50, 49, 13, 10],
      [79, 75, 13, 10]]
    (stFix [[82, 32, 48, 32, 52, 13, 10], [48, 13, 10],
      [38, 32, 48, 40, 35, 33, 32, 52, 38, 13, 10], [50, 49, 13, 10],
      [79, 75, 13, 10]])
    (by decide) (by decide) (by decide)]
  simp only [PyResult.andThen_ok]
  rw [rdl_one_big_block argsFix 4 60 0 1 2 []
    [38, 32, 48, 40, 35, 33, 32, 52, 38, 13, 10] [50, 49, 13, 10]
    [79, 75, 13, 10] [] [1, 2, 3, 4, 5, 6] _
    (by decide) (by decide) (by decide) (by rfl) (by decide)
    (by norm_num) (by norm_num) (by decide) (by decide)]
  rfl

/-- Concrete 4-byte block fixture: one encoded line carrying `[1,2,3,4]`
(padded by repeating the last byte), checksum 10, and the `OK` echo. -/
def blk4Fix : SentBlock :=
  { lines := [[36, 32, 48, 40, 35, 33, 32, 48, 36, 13, 10]],
    ckLine := [49, 48, 13, 10],
    ackEcho := [79, 75, 13, 10],
    payload := [1, 2, 3, 4] }

/-- Witness for C4 (amended): a 4-byte read served by exactly one
well-formed 4-byte block returns exactly those 4 bytes. -/
theorem C4_read_memory_amended_witness :
    (∀ b ∈ [blk4Fix], b.wf) ∧
      read_memory argsFix 0 4 60 [0, 1, 2, 3]
          (stFix ([82, 32, 48, 32, 52, 13, 10] :: [48, 13, 10] ::
            (blocksChunks [blk4Fix] ++ []))) =
        .ok (blocksPayload [blk4Fix])
          { stFix ([82, 32, 48, 32, 52, 13, 10] :: [48, 13, 10] ::
              (blocksChunks [blk4Fix] ++ [])) with
            ser := { (stFix ([82, 32, 48, 32, 52, 13, 10] :: [48, 13, 10] ::
                (blocksChunks [blk4Fix] ++ []))).ser with
              incoming := [],
              written := (stFix ([82, 32, 48, 32, 52, 13, 10] :: [48, 13, 10] ::
                  (blocksChunks [blk4Fix] ++ []))).ser.written ++
                normalizeCmd (.strArg (strBytes "R " ++ decRepr 0 ++
                  strBytes " " ++ decRepr 4)) ::
                ([blk4Fix].map fun _ => strBytes "OK" ++ [13, 10]),
              timeout := some ((argsFix).timeout : ℚ) } } :=
  ⟨by decide,
    C4_read_memory_amended argsFix 0 4 60 0 [1, 2, 3] [48, 13, 10] [blk4Fix] []
      (stFix ([82, 32, 48, 32, 52, 13, 10] :: [48, 13, 10] ::
        (blocksChunks [blk4Fix] ++ [])))
      (by decide) (by decide) (by decide) (by decide) (by decide) (by decide)
      (by decide) (by decide)
      (by intro t ht; fin_cases ht <;> norm_num)⟩

/-! ### The disabled read timeout leaks on the timeout path (claim C5) -/

/-- C5 evaluated at the failing input: `_read_data` of 8 bytes, the clock
jumping past the 60-second deadline, the cancel byte's echo available.
The operation raises the read-timeout error, but the serial timeout —
disabled at entry — is left at `None` instead of being restored to the
configured default, contradicting the specified restore-on-every-exit-path
behavior. -/
theorem C5_timeout_leak_on_timeout_path :
    read_data argsFix 8 60 [0, 61] (stFix [[27]]) =
      .exn .readTimeout
        { ser := { incoming := [], written := [[27]], ctrl := [], timeout := none },
          echoFlag := true } ∧
      (read_data argsFix 8 60 [0, 61] (stFix [[27]])).finalState.ser.timeout =
        none ∧
      none ≠ some ((argsFix).timeout : ℚ) := by
  have h : read_data argsFix 8 60 [0, 61] (stFix [[27]]) =
      .exn .readTimeout
        { ser := { incoming := [], written := [[27]], ctrl := [], timeout := none },
          echoFlag := true } := by
    simp only [read_data]
    rw [read_data_loop.eq_def]
    rw [if_pos (by decide)]
    simp only []
    rw [if_pos (by norm_num)]
    simp [cancel_cmd, read1, read_until, serWrite, setSerTimeout, stFix]
  refine ⟨h, ?_, by simp⟩
  rw [h]
  rfl

/-! ### The synchronization handshake (claim C6) -/

/-- C6: one iteration of `synchronize`'s retry loop.  Past the hard-coded
10-second deadline the loop raises the fatal synchronization error
instead of retrying (conjunct 1).  Within the deadline, the attempt
starts from a fresh reset pulse (`resetFn`); it returns success exactly
when the handshake phrase, the echo acknowledgment `OK`, and the
clock-frequency acknowledgment `OK` all arrive in that order within this
single attempt, and any single-step mismatch falls through to the next
iteration — which begins again with a reset pulse (conjunct 2). -/
theorem C6_synchronize_protocol (a : Args) (start now : ℚ) (clock : List ℚ)
    (st st2 st3 st4 : EngState) (r1 r2 r3 : PyResp) :
    (now - start > 10 →
      syncLoop a start (now :: clock) st = .exn .syncFailed st) ∧
    (¬ (now - start > 10) →
      cmd a (.bytesArg [63]) false (some 1) none (resetFn st) = .ok r1 st2 →
      (r1 ≠ .one (strBytes "Synchronized") →
        syncLoop a start (now :: clock) st = syncLoop a start clock st2) ∧
      (r1 = .one (strBytes "Synchronized") →
        cmd a (.strArg (strBytes "Synchronized")) false (some 1) none st2 =
          .ok r2 st3 →
        (r2 ≠ .one (strBytes "OK") →
          syncLoop a start (now :: clock) st = syncLoop a start clock st3) ∧
        (r2 = .one (strBytes "OK") →
          cmd a (.strArg (decRepr a.tgtclk)) false (some 1) none st3 =
            .ok r3 st4 →
          (r3 ≠ .one (strBytes "OK") →
            syncLoop a start (now :: clock) st = syncLoop a start clock st4) ∧
          (r3 = .one (strBytes "OK") →
            syncLoop a start (now :: clock) st = .ok () st4)))) := by
  constructor
  · intro hdl
    rw [syncLoop, if_pos hdl]
  · intro hdl h1
    rw [syncLoop, if_neg hdl, h1, PyResult.andThen_ok]
    constructor
    · intro hne
      rw [if_pos hne]
    · intro heq h2
      rw [if_neg (by simp [heq]), h2, PyResult.andThen_ok]
      constructor
      · intro hne
        rw [if_pos hne]
      · intro heq2 h3
        rw [if_neg (by simp [heq2]), h3, PyResult.andThen_ok]
        constructor
        · intro hne
          rw [if_pos hne]
        · intro heq3
          rw [if_neg (by simp [heq3])]

/-- Witness for C6 (conjunct 1): a clock reading 11 seconds past the
start makes the loop raise the fatal synchronization error. -/
theorem C6_synchronize_protocol_witness :
    ((11 : ℚ) - 0 > 10) ∧
      syncLoop argsFix 0 [11] (stFix []) = .exn .syncFailed (stFix []) :=
  ⟨by norm_num,
    (C6_synchronize_protocol argsFix 0 11 [] (stFix []) (stFix []) (stFix [])
      (stFix []) .noneR .noneR .noneR).1 (by norm_num)⟩

/-! ### `sync_timeout` is stored but never read (claim C10) -/

lemma cmd_sync_timeout (a : Args) (v₁ v₂ : Nat) (arg : CmdArg) (rc : Bool)
    (lines : Option Int) (tmo : Option ℚ) (st : EngState) :
    cmd { a with sync_timeout := v₁ } arg rc lines tmo st =
      cmd { a with sync_timeout := v₂ } arg rc lines tmo st := rfl

lemma syncLoop_sync_timeout (a : Args) (v₁ v₂ : Nat) (start : ℚ) :
    ∀ (clock : List ℚ) (st : EngState),
      syncLoop { a with sync_timeout := v₁ } start clock st =
        syncLoop { a with sync_timeout := v₂ } start clock st := by
  intro clock
  induction clock with
  | nil => intro st; rfl
  | cons now clock ih =>
    intro st
    simp only [syncLoop,
      show ({ a with sync_timeout := v₁ } : Args).tgtclk = a.tgtclk from rfl,
      show ({ a with sync_timeout := v₂ } : Args).tgtclk = a.tgtclk from rfl,
      cmd_sync_timeout a v₁ v₂, ih]

lemma rdl_sync_timeout (a : Args) (v₁ v₂ : Nat) (size : Nat) (tmo start : ℚ) :
    ∀ (clock : List ℚ) (data bd : List Nat) (blocks : Nat) (st : EngState),
      read_data_loop { a with sync_timeout := v₁ } size tmo start clock data bd
          blocks st =
        read_data_loop { a with sync_timeout := v₂ } size tmo start clock data bd
          blocks st := by
  intro clock
  induction clock with
  | nil => intro data bd blocks st; rfl
  | cons now clock ih =>
    intro data bd blocks st
    rw [read_data_loop.eq_def]
    rw [show (read_data_loop { a with sync_timeout := v₂ } size tmo start
      (now :: clock) data bd blocks st) = _ from read_data_loop.eq_def ..]
    simp only [
      show ({ a with sync_timeout := v₁ } : Args).timeout = a.timeout from rfl,
      show ({ a with sync_timeout := v₂ } : Args).timeout = a.timeout from rfl,
      cmd_sync_timeout a v₁ v₂, ih]

/-- C10: the stored `sync_timeout` constructor argument has no effect on
any operation: `synchronize` (whose deadline is the hard-coded constant
10.0 seconds), the command channel, the memory read, and the echo setter
behave identically for any two values of it. -/
theorem C10_sync_timeout_unused :
    (∀ (a : Args) (v₁ v₂ : Nat) (clock : List ℚ) (st : EngState),
      synchronize { a with sync_timeout := v₁ } clock st =
        synchronize { a with sync_timeout := v₂ } clock st) ∧
    (∀ (a : Args) (v₁ v₂ : Nat) (arg : CmdArg) (rc : Bool) (lines : Option Int)
      (tmo : Option ℚ) (st : EngState),
      cmd { a with sync_timeout := v₁ } arg rc lines tmo st =
        cmd { a with sync_timeout := v₂ } arg rc lines tmo st) ∧
    (∀ (a : Args) (v₁ v₂ : Nat) (addr size : Nat) (tmo : ℚ) (clock : List ℚ)
      (st : EngState),
      read_memory { a with sync_timeout := v₁ } addr size tmo clock st =
        read_memory { a with sync_timeout := v₂ } addr size tmo clock st) ∧
    (∀ (a : Args) (v₁ v₂ : Nat) (mode : Bool) (st : EngState),
      echo_setter { a with sync_timeout := v₁ } mode st =
        echo_setter { a with sync_timeout := v₂ } mode st) := by
  refine ⟨?_, ?_, ?_, ?_⟩
  · intro a v₁ v₂ clock st
    cases clock with
    | nil => rfl
    | cons start clock => exact syncLoop_sync_timeout a v₁ v₂ start clock st
  · intro a v₁ v₂ arg rc lines tmo st
    exact cmd_sync_timeout a v₁ v₂ arg rc lines tmo st
  · intro a v₁ v₂ addr size tmo clock st
    simp only [read_memory, read_data, cmd_sync_timeout a v₁ v₂,
      show ({ a with sync_timeout := v₁ } : Args).timeout = a.timeout from rfl,
      show ({ a with sync_timeout := v₂ } : Args).timeout = a.timeout from rfl]
    cases clock with
    | nil => rfl
    | cons start clock =>
      simp only [rdl_sync_timeout a v₁ v₂ size tmo start clock]
  · intro a v₁ v₂ mode st
    rfl

end Lpcisp
